import Mathlib

/-!
Verification of the Label Lifecycle & Naming core of the label backend
server.  Pure fragments of the TypeScript source (controllers, the
`LabelService` / `StorageManager` / `ThumbnailService` helpers and the
bulk-creation loop) are embedded as executable Lean definitions;
the naming utilities whose implementation file is absent from the
repository are modelled from the specification and marked as such.
-/

namespace LabelBackend
/-- The decimal digit character for `d` (meaningful for `d < 10`). -/
def digitChar (d : Nat) : Char := Char.ofNat (48 + d)

/-- Little-endian decimal digit list of `n`; `fuel` bounds the recursion. -/
def toDigitsLE : Nat → Nat → List Char
  | 0, _ => []
  | fuel + 1, n => if n < 10 then [digitChar n] else digitChar (n % 10) :: toDigitsLE fuel (n / 10)

/-- Value of a little-endian decimal digit list. -/
def ofDigitsLE : List Char → Nat
  | [] => 0
  | c :: cs => (c.toNat - 48) + 10 * ofDigitsLE cs

/-- Decimal string of a natural number (most significant digit first). -/
def natToString (n : Nat) : String := ⟨(toDigitsLE (n + 1) n).reverse⟩

def firstFreeAux (cand : Nat → String) (existing : List String) : Nat → Nat → Nat
  | 0, k => k
  | fuel + 1, k => if cand k ∈ existing then firstFreeAux cand existing fuel (k + 1) else k

/-- Smallest `j ≥ start` with `cand j` not among `existing` (searching
`existing.length + 1` candidates, enough when `cand` is injective). -/
def firstFree (cand : Nat → String) (existing : List String) (start : Nat) : Nat :=
  firstFreeAux cand existing (existing.length + 1) start

/-- JavaScript `v || d` on an optional string: the default is used when the
value is absent or empty (both are falsy). -/
def jsOrString (v : Option String) (d : String) : String :=
  match v with
  | some s => if s = "" then d else s
  | none => d

/-- The candidate name `"<baseName> <k>"`. -/
def uniqueNameCand (baseName : String) (k : Nat) : String :=
  baseName ++ " " ++ natToString k

/-- Modelled from the spec: `generateUniqueName(existingNames, baseName = "New Label")`
returns `"<baseName> <k>"` for the smallest positive integer `k` such that the
result is not present in `existingNames`.  The implementation file
`src/utils/labelNaming.ts` (imported by the controllers as
`generateUniqueLabel`) is absent from the repository, so the function is
modelled from the specification's contract. -/
def generateUniqueName (existingNames : List String) (baseName : String) : String :=
  uniqueNameCand baseName (firstFree (uniqueNameCand baseName) existingNames 1)

/-- A sequence of `generateUniqueName` calls, each result appended to the
existing-name set before the next call (one base name per call). -/
def feedbackNames (existingNames : List String) : List String → List String
  | [] => []
  | b :: bs =>
      let name := generateUniqueName existingNames b
      name :: feedbackNames (existingNames ++ [name]) bs

/-- `suffix.data.isSuffixOf s.data`: does `s` end with `suffix`? -/
def strEndsWith (s suffix : String) : Bool := suffix.data.isSuffixOf s.data

/-- Drop the last `n` characters of `s`. -/
def strDropRight (s : String) (n : Nat) : String := ⟨s.data.take (s.data.length - n)⟩

/-- Value of a big-endian decimal digit list. -/
def digitsVal (ds : List Char) : Nat := ds.foldl (fun a c => a * 10 + (c.toNat - 48)) 0

/-- The maximal run of decimal digits at the end of `s`. -/
def trailingDigits (s : String) : List Char := (s.data.reverse.takeWhile Char.isDigit).reverse

/-- The candidate copy name `"<stem> Copy <k>"`. -/
def copyNumName (stem : String) (k : Nat) : String := stem ++ " Copy " ++ natToString k

/-- Modelled from the spec: recognize a name already matching `"<stem> Copy"`
(read as `n = 1`) or `"<stem> Copy <n>"`, returning the stem and `n`.
Part of the absent `src/utils/labelNaming.ts`. -/
def parseCopy (name : String) : Option (String × Nat) :=
  if strEndsWith name " Copy" then some (strDropRight name 5, 1)
  else
    let ds := trailingDigits name
    if ds = [] then none
    else
      let stemPart := strDropRight name ds.length
      if strEndsWith stemPart " Copy " then some (strDropRight stemPart 6, digitsVal ds)
      else none

/-- Modelled from the spec: `generateCopyName(originalName, existingNames)` —
if `originalName` already matches `"<stem> Copy"` or `"<stem> Copy <n>"`, the
result increments to the next unused `n` for that stem; otherwise the result
is `"<originalName> Copy"`, falling back to `"<originalName> Copy <n>"`
(smallest unused `n ≥ 2`) if that is already taken.  The implementation file
`src/utils/labelNaming.ts` is absent from the repository, so the function is
modelled from the specification's words. -/
def generateCopyName (originalName : String) (existingNames : List String) : String :=
  match parseCopy originalName with
  | some (stem, n) => copyNumName stem (firstFree (copyNumName stem) existingNames (n + 1))
  | none =>
      if (originalName ++ " Copy") ∈ existingNames then
        copyNumName originalName (firstFree (copyNumName originalName) existingNames 2)
      else originalName ++ " Copy"

/-- The per-item loop of `createBulkLabels`: before each insert the current
sibling-name list is re-derived and one unique name is computed; the inserted
name is visible to the next iteration.  The optional `baseName` falls back to
`"New Label"` via JavaScript truthiness (`name || 'New Label'`). -/
def createBulkNames (existingNames : List String) (baseName : Option String) : Nat → List String
  | 0 => []
  | n + 1 =>
      let name := generateUniqueName existingNames (jsOrString baseName "New Label")
      name :: createBulkNames (existingNames ++ [name]) baseName n

/-! ### Data model

Mirrors `prisma/schema.prisma` (`model Label`, defaults `width 100`,
`height 50`, `version 1`) and the Joi-validated request bodies.  The
Fabric.js canvas document is opaque to the backend; we keep just enough
structure for the default value `{version: '6.0.0', objects: [],
background: '#ffffff'}` used throughout the controllers. -/

structure FabricData where
  version : String
  objects : List String
  background : String
deriving DecidableEq

/-- The default empty-canvas descriptor. -/
def defaultFabricData : FabricData := ⟨"6.0.0", [], "#ffffff"⟩

structure Label where
  id : String
  name : String
  description : Option String
  projectId : String
  fabricData : FabricData
  thumbnail : Option String
  width : Nat
  height : Nat
  version : Nat
  createdAt : Nat
  updatedAt : Nat
deriving DecidableEq

structure Project where
  id : String
  name : String
  description : Option String
  icon : Option String
  color : String
  userId : String
deriving DecidableEq

/-- The Joi-validated body of an update request (`updateLabelSchema` fields,
plus the `version` field the controllers read for optimistic locking);
`none` models an absent (`undefined`) field. -/
structure UpdatePatch where
  name : Option String
  description : Option String
  width : Option Nat
  height : Option Nat
  fabricData : Option FabricData
  thumbnail : Option String
  version : Option Nat
deriving DecidableEq

/-- JavaScript truthiness of an optional number: absent and `0` are falsy. -/
def jsTruthyNat : Option Nat → Bool
  | some v => v != 0
  | none => false

inductive UpdateResult where
  | notFound
  | versionConflict (currentVersion providedVersion : Nat)
  | updated (label : Label)
deriving DecidableEq

/-! ### LabelLifecycleService: updateLabel

Embeds the success-path logic of `updateLabel` (part_015 lines 370–435;
part_014 lines 465–557 has the same version check).  After the Joi
validation and the ownership-scoped `findFirst`, the controller checks
`if (value.version && existingLabel.version !== value.version)` and
answers `VERSION_CONFLICT` with the current stored version, touching
nothing; otherwise it updates the row with the patch (minus `version`),
`updatedAt: new Date()` and `version: { increment: 1 }`. -/

/-- The Prisma `update` data: patch fields when present, `updatedAt := now`,
`version` incremented by exactly 1. -/
def applyPatch (existing : Label) (value : UpdatePatch) (now : Nat) : Label :=
  { existing with
    name := value.name.getD existing.name
    description := match value.description with
      | some d => some d
      | none => existing.description
    width := value.width.getD existing.width
    height := value.height.getD existing.height
    fabricData := value.fabricData.getD existing.fabricData
    thumbnail := match value.thumbnail with
      | some t => some t
      | none => existing.thumbnail
    updatedAt := now
    version := existing.version + 1 }

/-- `updateLabel` as a transformer of the stored label table: the result pairs
the table after the operation with the controller's response. -/
def updateLabelOp (st : List Label) (labelId : String) (value : UpdatePatch) (now : Nat) :
    List Label × UpdateResult :=
  match st.find? (fun l => l.id == labelId) with
  | none => (st, .notFound)
  | some existing =>
      if jsTruthyNat value.version && existing.version != value.version.getD 0 then
        (st, .versionConflict existing.version (value.version.getD 0))
      else
        let newLabel := applyPatch existing value now
        (st.map (fun l => if l.id == labelId then newLabel else l), .updated newLabel)

/-! ### LabelService (part_008 lines 128–161)

`updateLabelData` and `updateThumbnail` write `fabricData` respectively
`thumbnail` together with `updatedAt` — and nothing else. -/

/-- `LabelService.updateLabelData`: sets `fabricData` and `updatedAt` only. -/
def updateLabelData (label : Label) (fabricData : FabricData) (now : Nat) : Label :=
  { label with fabricData := fabricData, updatedAt := now }

/-- `LabelService.updateThumbnail`: sets `thumbnail` and `updatedAt` only. -/
def updateThumbnail (label : Label) (thumbnailPath : String) (now : Nat) : Label :=
  { label with thumbnail := some thumbnailPath, updatedAt := now }

/-! ### AssetCoordinator (`StorageManager`, cache-manager.ts lines 419–646)

The Supabase client resolves every call with a `{ data, error }` pair; an
exception thrown inside a `try` block of the manager is modelled as the
`Except.error` branch.  `uploadFile`/`uploadThumbnail`/`deleteLabelThumbnails`
log and RE-THROW on failure, while `refreshThumbnailUrl` catches and returns
`null`. -/

structure SbResult (α : Type) where
  data : Option α
  error : Option String
deriving DecidableEq

/-- The storage backend's observable behaviour: `upload` answers the stored
path, `createSignedUrl` a signed URL, `list` the object names under a folder,
`remove` only an error indicator. -/
structure StorageBackend where
  upload : String → SbResult String
  createSignedUrl : String → Nat → SbResult String
  list : String → SbResult (List String)
  remove : List String → SbResult Unit

/-- Reading a `{ data, error }` response inside a `try` block: an `error`
field becomes a thrown `Error(msg + e)`, and touching a `null` `data` field
afterwards throws a `TypeError`. -/
def sbUnwrap {α : Type} (r : SbResult α) (msg : String) : Except String α :=
  match r.error with
  | some e => .error (msg ++ e)
  | none =>
      match r.data with
      | some a => .ok a
      | none => .error "TypeError"

/-- `StorageManager.uploadFile`: upload, then sign the uploaded path; on any
failure the error is logged and re-thrown.  Returns `(url, path)`. -/
def uploadFile (b : StorageBackend) (path : String) : Except String (String × String) :=
  match sbUnwrap (b.upload path) "Upload failed: " with
  | .error e => .error e
  | .ok p =>
      match sbUnwrap (b.createSignedUrl p 3600) "Failed to create signed URL: " with
      | .error e => .error e
      | .ok u => .ok (u, p)

/-- The storage path rendered in `uploadThumbnail`:
`labels/${labelId}/${size}.png` — no randomness, no timestamp. -/
def uploadThumbnailPath (labelId size : String) : String :=
  "labels/" ++ labelId ++ "/" ++ size ++ ".png"

/-- The path recomputed in `refreshThumbnailUrl`:
`labels/${labelId}/${size}.png`. -/
def refreshThumbnailPath (labelId size : String) : String :=
  "labels/" ++ labelId ++ "/" ++ size ++ ".png"

/-- `StorageManager.uploadThumbnail`: best-effort cleanup (failures swallowed,
no observable result), then `uploadFile` at the deterministic path; upload
failures are logged and RE-THROWN to the caller. -/
def uploadThumbnail (b : StorageBackend) (labelId size : String) :
    Except String (String × String) :=
  uploadFile b (uploadThumbnailPath labelId size)

/-- `StorageManager.getSignedUrl`: sign a path, re-throwing on failure. -/
def getSignedUrl (b : StorageBackend) (path : String) (ttl : Nat) : Except String String :=
  sbUnwrap (b.createSignedUrl path ttl) "Failed to create signed URL: "

/-- `StorageManager.refreshThumbnailUrl`: recompute the deterministic path and
request a fresh signed URL; on any failure it logs a warning and returns
`null` instead of throwing. -/
def refreshThumbnailUrl (b : StorageBackend) (labelId size : String) : Option String :=
  match getSignedUrl b (refreshThumbnailPath labelId size) 3600 with
  | .ok u => some u
  | .error _ => none

/-- `StorageManager.deleteLabelThumbnails`: destructures only `data` from the
`list` response (a `null` listing silently skips the removal), and re-throws
when `remove` reports an error. -/
def deleteLabelThumbnails (b : StorageBackend) (labelId : String) : Except String Unit :=
  match (b.list ("labels/" ++ labelId)).data with
  | some files =>
      if files.isEmpty then .ok ()
      else
        match (b.remove (files.map (fun f => "labels/" ++ labelId ++ "/" ++ f))).error with
        | some e => .error ("Failed to delete thumbnails: " ++ e)
        | none => .ok ()
  | none => .ok ()

/-- A backend whose every call fails with a network error (`{ data: null,
error }` on each operation): the unreachable-storage scenario. -/
def unreachableBackend : StorageBackend where
  upload _ := ⟨none, some "fetch failed"⟩
  createSignedUrl _ _ := ⟨none, some "fetch failed"⟩
  list _ := ⟨none, some "fetch failed"⟩
  remove _ := ⟨none, some "fetch failed"⟩

/-! ### Blob-store contents

`put` with `upsert: true` overwrites the object at a path; `signUrl` serves
whatever bytes are stored there.  Used to state that the deterministic path
makes re-uploads overwrite and refreshed URLs resolve to the stored bytes. -/

/-- Object table of the blob store: an association of path to bytes. -/
def storePut (st : List (String × String)) (path bytes : String) : List (String × String) :=
  (path, bytes) :: st.filter (fun e => e.1 ≠ path)

/-- The bytes currently stored at `path`. -/
def storeGet (st : List (String × String)) (path : String) : Option String :=
  (st.find? (fun e => e.1 == path)).map (fun e => e.2)

/-! ### LabelLifecycleService: createLabel (part_014 lines 382–463)

The label row is created first with the submitted thumbnail payload; when the
payload is a data URL the controller then uploads it and, only on success,
replaces the stored thumbnail with the storage URL — an upload failure is
logged and the data URL kept ("Continue with data URL"). -/

/-- `pre.data.isPrefixOf s.data`: does `s` start with `pre`? -/
def strStartsWith (s pre : String) : Bool := pre.data.isPrefixOf s.data

/-- The Joi-validated body of `createLabelSchema` (`name` required). -/
structure CreateLabelValue where
  name : String
  description : Option String
  width : Option Nat
  height : Option Nat
  fabricData : Option FabricData
  thumbnail : Option String
deriving DecidableEq

def createLabel (b : StorageBackend) (newId projectId : String) (value : CreateLabelValue)
    (now : Nat) : Label :=
  let thumbnailData := value.thumbnail
  let label : Label :=
    { id := newId
      name := value.name
      description := value.description
      projectId := projectId
      fabricData := value.fabricData.getD defaultFabricData
      thumbnail := thumbnailData
      width := value.width.getD 100
      height := value.height.getD 50
      version := 1
      createdAt := now
      updatedAt := now }
  match thumbnailData with
  | some t =>
      if strStartsWith t "data:image/" then
        match uploadThumbnail b newId "md" with
        | .ok (url, _) => { label with thumbnail := some url }
        | .error _ => label
      else label
  | none => label

/-! ### createProject (part_015 lines 97–158)

After inserting the project (color defaulted via `color || '#3b82f6'`), the
controller inserts one label named `"Default Label"` into it; the remaining
label columns take their schema defaults. -/

structure CreateProjectValue where
  name : String
  description : Option String
  icon : Option String
  color : Option String
deriving DecidableEq

def createProject (value : CreateProjectValue) (userId newProjectId newLabelId : String)
    (now : Nat) : Project × List Label :=
  let project : Project :=
    { id := newProjectId
      name := value.name
      description := value.description
      icon := value.icon
      color := jsOrString value.color "#3b82f6"
      userId := userId }
  let defaultLabel : Label :=
    { id := newLabelId
      name := "Default Label"
      description := some "Default label for new project"
      projectId := newProjectId
      fabricData := defaultFabricData
      thumbnail := none
      width := 100
      height := 50
      version := 1
      createdAt := now
      updatedAt := now }
  (project, [defaultLabel])

/-! ### Concrete example values -/

/-- A stored label at version 3 (the spec's §8 optimistic-concurrency example). -/
def exLabel : Label :=
  { id := "L1", name := "Alpha", description := none, projectId := "P1"
    fabricData := defaultFabricData, thumbnail := none, width := 100, height := 50
    version := 3, createdAt := 0, updatedAt := 0 }

/-- A patch renaming the label, carrying the given optional `version`. -/
def exPatch (v : Option Nat) : UpdatePatch :=
  { name := some "Beta", description := none, width := none, height := none
    fabricData := none, thumbnail := none, version := v }

/-- A create request carrying a data-URL thumbnail payload. -/
def exCreateValue : CreateLabelValue :=
  { name := "Invoice", description := none, width := none, height := none
    fabricData := none, thumbnail := some "data:image/png;base64,AAAA" }

/-- A storage backend that stores at the requested path and signs it. -/
def echoBackend : StorageBackend where
  upload p := ⟨some p, none⟩
  createSignedUrl p _ := ⟨some ("signed:" ++ p), none⟩
  list _ := ⟨some [], none⟩
  remove _ := ⟨some (), none⟩

theorem digitChar_toNat {d : Nat} (h : d < 10) : (digitChar d).toNat = 48 + d := by
  interval_cases d <;> decide

theorem ofDigitsLE_toDigitsLE : ∀ fuel n, n < fuel → ofDigitsLE (toDigitsLE fuel n) = n := by
  intro fuel
  induction fuel with
  | zero => intro n h; omega
  | succ fuel ih =>
    intro n h
    by_cases h10 : n < 10
    · simp [toDigitsLE, h10, ofDigitsLE, digitChar_toNat h10]
    · have hdiv : n / 10 < fuel := by
        have h1 : n / 10 < n := Nat.div_lt_self (by omega) (by omega)
        omega
      have hmod : n % 10 < 10 := Nat.mod_lt _ (by omega)
      simp only [toDigitsLE, if_neg h10, ofDigitsLE, ih (n / 10) hdiv,
        digitChar_toNat hmod]
      omega

theorem toDigitsLE_injOn {n m : Nat} (h : toDigitsLE (n + 1) n = toDigitsLE (m + 1) m) :
    n = m := by
  have hn := ofDigitsLE_toDigitsLE (n + 1) n (Nat.lt_succ_self n)
  have hm := ofDigitsLE_toDigitsLE (m + 1) m (Nat.lt_succ_self m)
  rw [← hn, ← hm, h]

theorem natToString_injective : Function.Injective natToString := by
  intro n m h
  have hdata : (toDigitsLE (n + 1) n).reverse = (toDigitsLE (m + 1) m).reverse := by
    simpa [natToString, String.ext_iff] using h
  exact toDigitsLE_injOn (List.reverse_injective hdata)

/-! ### Minimal-free-index search

`firstFreeAux cand existing fuel k` returns the smallest index `j ≥ k`
with `cand j ∉ existing`, provided such an index exists within `fuel`
steps.  With `fuel = existing.length + 1` and an injective candidate
function, the pigeonhole principle guarantees success. -/

theorem firstFreeAux_ge (cand : Nat → String) (existing : List String) :
    ∀ fuel k, k ≤ firstFreeAux cand existing fuel k := by
  intro fuel
  induction fuel with
  | zero => intro k; simp [firstFreeAux]
  | succ fuel ih =>
    intro k
    by_cases h : cand k ∈ existing
    · simp only [firstFreeAux, if_pos h]
      exact Nat.le_trans (Nat.le_succ k) (ih (k + 1))
    · simp [firstFreeAux, if_neg h]

theorem firstFreeAux_min (cand : Nat → String) (existing : List String) :
    ∀ fuel k j, k ≤ j → j < firstFreeAux cand existing fuel k → cand j ∈ existing := by
  intro fuel
  induction fuel with
  | zero => intro k j hkj hlt; simp [firstFreeAux] at hlt; omega
  | succ fuel ih =>
    intro k j hkj hlt
    by_cases h : cand k ∈ existing
    · simp only [firstFreeAux, if_pos h] at hlt
      rcases Nat.eq_or_lt_of_le hkj with heq | hgt
      · exact heq ▸ h
      · exact ih (k + 1) j hgt hlt
    · simp only [firstFreeAux, if_neg h] at hlt; omega

theorem firstFreeAux_free (cand : Nat → String) (existing : List String) :
    ∀ fuel k, (∃ j, j < fuel ∧ cand (k + j) ∉ existing) →
      cand (firstFreeAux cand existing fuel k) ∉ existing := by
  intro fuel
  induction fuel with
  | zero => intro k ⟨j, hj, _⟩; omega
  | succ fuel ih =>
    intro k ⟨j, hj, hfree⟩
    by_cases h : cand k ∈ existing
    · simp only [firstFreeAux, if_pos h]
      apply ih (k + 1)
      match j, hj, hfree with
      | 0, _, hfree => exact absurd h (by simpa using hfree)
      | j + 1, hj, hfree => exact ⟨j, by omega, by simpa [Nat.add_assoc, Nat.add_comm 1 j] using hfree⟩
    · simpa [firstFreeAux, if_neg h] using h

theorem exists_free_of_injective (cand : Nat → String) (existing : List String)
    (hinj : Function.Injective cand) (k : Nat) :
    ∃ j, j < existing.length + 1 ∧ cand (k + j) ∉ existing := by
  by_contra hall
  push_neg at hall
  have hsub : (Finset.range (existing.length + 1)).image (fun j => cand (k + j)) ⊆
      existing.toFinset := by
    intro x hx
    rcases Finset.mem_image.mp hx with ⟨j, hj, rfl⟩
    exact List.mem_toFinset.mpr (hall j (Finset.mem_range.mp hj))
  have hcard : existing.length + 1 ≤ existing.toFinset.card := by
    have himg : ((Finset.range (existing.length + 1)).image (fun j => cand (k + j))).card =
        existing.length + 1 := by
      rw [Finset.card_image_of_injective _ (fun a b hab => by
        exact Nat.add_left_cancel (hinj hab))]
      simp
    calc existing.length + 1 = _ := himg.symm
      _ ≤ existing.toFinset.card := Finset.card_le_card hsub
  have := existing.toFinset_card_le
  omega

theorem firstFree_free (cand : Nat → String) (existing : List String)
    (hinj : Function.Injective cand) (start : Nat) :
    cand (firstFree cand existing start) ∉ existing :=
  firstFreeAux_free cand existing _ start (exists_free_of_injective cand existing hinj start)

theorem firstFree_ge (cand : Nat → String) (existing : List String) (start : Nat) :
    start ≤ firstFree cand existing start :=
  firstFreeAux_ge cand existing _ start

theorem firstFree_min (cand : Nat → String) (existing : List String) (start j : Nat)
    (h1 : start ≤ j) (h2 : j < firstFree cand existing start) : cand j ∈ existing :=
  firstFreeAux_min cand existing _ start j h1 h2

/-! ### NamingEngine -/

theorem uniqueNameCand_injective (b : String) : Function.Injective (uniqueNameCand b) := by
  intro n m h
  apply natToString_injective
  apply String.ext
  have hd : (b ++ " ").data ++ (natToString n).data = (b ++ " ").data ++ (natToString m).data := by
    simpa [uniqueNameCand, String.data_append] using congrArg String.data h
  exact List.append_cancel_left hd

/-- Contract (1): the result is not among the existing names. -/
theorem generateUniqueName_not_mem (existingNames : List String) (baseName : String) :
    generateUniqueName existingNames baseName ∉ existingNames :=
  firstFree_free _ _ (uniqueNameCand_injective baseName) 1

/-- Contract (3): the chosen `k` is positive and minimal. -/
theorem generateUniqueName_minimal (existingNames : List String) (baseName : String) :
    ∃ k, 1 ≤ k ∧ generateUniqueName existingNames baseName = uniqueNameCand baseName k ∧
      ∀ j, 1 ≤ j → j < k → uniqueNameCand baseName j ∈ existingNames :=
  ⟨firstFree (uniqueNameCand baseName) existingNames 1,
    firstFree_ge _ _ 1, rfl, fun j h1 h2 => firstFree_min _ _ 1 j h1 h2⟩

theorem feedbackNames_nodup_aux (bases : List String) :
    ∀ existingNames, (feedbackNames existingNames bases).Nodup ∧
      ∀ x ∈ feedbackNames existingNames bases, x ∉ existingNames := by
  induction bases with
  | nil => intro existingNames; simp [feedbackNames]
  | cons b bs ih =>
    intro existingNames
    obtain ⟨hnd, hni⟩ := ih (existingNames ++ [generateUniqueName existingNames b])
    constructor
    · refine List.nodup_cons.mpr ⟨fun hmem => ?_, hnd⟩
      have := hni _ hmem
      simp at this
    · intro x hx
      rcases List.mem_cons.mp hx with rfl | hx
      · exact generateUniqueName_not_mem existingNames b
      · intro hmem
        exact (hni x hx) (by simp [hmem])

theorem copyNumName_injective (stem : String) : Function.Injective (copyNumName stem) := by
  intro n m h
  apply natToString_injective
  apply String.ext
  have hd : (stem ++ " Copy ").data ++ (natToString n).data =
      (stem ++ " Copy ").data ++ (natToString m).data := by
    simpa [copyNumName, String.data_append] using congrArg String.data h
  exact List.append_cancel_left hd

theorem toDigitsLE_head (fuel n : Nat) (h : 0 < fuel) :
    ∃ d rest, d < 10 ∧ toDigitsLE fuel n = digitChar d :: rest := by
  cases fuel with
  | zero => omega
  | succ fuel =>
    by_cases h10 : n < 10
    · exact ⟨n, [], h10, by simp [toDigitsLE, h10]⟩
    · exact ⟨n % 10, toDigitsLE fuel (n / 10), Nat.mod_lt _ (by omega), by
        simp [toDigitsLE, h10]⟩

theorem natToString_getLast (n : Nat) :
    ∃ d, d < 10 ∧ (natToString n).data.getLast? = some (digitChar d) := by
  obtain ⟨d, rest, hd, heq⟩ := toDigitsLE_head (n + 1) n (Nat.succ_pos n)
  exact ⟨d, hd, by simp [natToString, heq, List.getLast?_reverse]⟩

/-- A generated `"<stem> Copy <k>"` never has the shape `"<x> Copy"`: its last
character is a decimal digit, not `'y'`. -/
theorem copyNumName_ne_append_copy (stem : String) (m : Nat) (orig : String) :
    copyNumName stem m ≠ orig ++ " Copy" := by
  intro h
  obtain ⟨d, hd, hlast⟩ := natToString_getLast m
  have hne : (natToString m).data ≠ [] := by
    intro hnil
    rw [hnil] at hlast
    simp at hlast
  have h1 : (copyNumName stem m).data.getLast? = some (digitChar d) := by
    have : (copyNumName stem m).data = (stem ++ " Copy ").data ++ (natToString m).data := by
      simp [copyNumName, String.data_append]
    rw [this, List.getLast?_append_of_ne_nil _ hne]
    exact hlast
  have h2 : (orig ++ " Copy").data.getLast? = some 'y' := by
    have : (orig ++ " Copy").data = orig.data ++ (" Copy").data := by
      simp [String.data_append]
    rw [this, List.getLast?_append_of_ne_nil _ (by decide)]
    decide
  rw [h, h2] at h1
  have hy := congrArg Char.toNat (Option.some.inj h1)
  rw [digitChar_toNat hd] at hy
  have h121 : Char.toNat 'y' = 121 := by decide
  omega

/-! ### Claims C1 and C9: optimistic concurrency in updateLabel -/

/-- Claim C1, as stated, is false: a request that supplies `expectedVersion = 0`
(different from the stored version 3) is NOT rejected with `VersionConflict` —
`if (value.version && ...)` treats `0` as absent, so the update proceeds and
modifies the stored label. -/
theorem C1_counterexample :
    (exPatch (some 0)).version = some 0 ∧ exLabel.version = 3 ∧
    updateLabelOp [exLabel] "L1" (exPatch (some 0)) 7 =
      ([applyPatch exLabel (exPatch (some 0)) 7], .updated (applyPatch exLabel (exPatch (some 0)) 7)) ∧
    applyPatch exLabel (exPatch (some 0)) 7 ≠ exLabel := by
  decide

/-- Claim C1 (amended: for a supplied NONZERO `expectedVersion`): when it
differs from the stored version, `updateLabel` fails with `VersionConflict`
reporting the current stored version and leaves the label table unchanged;
when it equals the stored version, the update succeeds and the stored version
becomes exactly the old version plus 1. -/
theorem updateLabel_optimistic_concurrency (st : List Label) (existing : Label)
    (labelId : String) (value : UpdatePatch) (now : Nat) (v : Nat)
    (hfind : st.find? (fun l => l.id == labelId) = some existing)
    (hv : value.version = some v) (hv0 : v ≠ 0) :
    (v ≠ existing.version →
      updateLabelOp st labelId value now = (st, .versionConflict existing.version v)) ∧
    (v = existing.version →
      updateLabelOp st labelId value now =
        (st.map (fun l => if l.id == labelId then applyPatch existing value now else l),
          .updated (applyPatch existing value now)) ∧
      (applyPatch existing value now).version = existing.version + 1) := by
  constructor
  · intro hne
    have hcond : (jsTruthyNat value.version && existing.version != value.version.getD 0) = true := by
      simp [jsTruthyNat, hv, hv0]
      omega
    simp [updateLabelOp, hfind, hcond, hv]
    exact ⟨by simp [jsTruthyNat, hv0], fun h => hne h.symm⟩
  · intro heq
    have hcond : (jsTruthyNat value.version && existing.version != value.version.getD 0) = false := by
      simp [jsTruthyNat, hv, heq]
    simp [updateLabelOp, hfind, hcond, applyPatch]

/-- Claim C1 witness: the §8 scenario at stored version 3 — `expectedVersion
= 2` conflicts reporting current version 3 with the table untouched, and
`expectedVersion = 3` succeeds moving the version to 4. -/
theorem updateLabel_optimistic_concurrency_witness :
    updateLabelOp [exLabel] "L1" (exPatch (some 2)) 7 = ([exLabel], .versionConflict 3 2) ∧
    ((updateLabelOp [exLabel] "L1" (exPatch (some 3)) 7).2 =
      .updated (applyPatch exLabel (exPatch (some 3)) 7) ∧
      (applyPatch exLabel (exPatch (some 3)) 7).version = 4) := by
  have h2 := updateLabel_optimistic_concurrency [exLabel] exLabel "L1" (exPatch (some 2)) 7 2
    (by decide) (by decide) (by decide)
  have h3 := updateLabel_optimistic_concurrency [exLabel] exLabel "L1" (exPatch (some 3)) 7 3
    (by decide) (by decide) (by decide)
  refine ⟨?_, ?_, ?_⟩
  · have := h2.1 (by decide)
    simpa [exLabel] using this
  · have := (h3.2 (by decide)).1
    rw [this]
  · have := (h3.2 (by decide)).2
    simpa [exLabel] using this

/-- Claim C9: the optimistic-version check applies only when the supplied
version is truthy — omitting it or supplying `0` bypasses the
`VersionConflict` check entirely; the update proceeds and still increments the
stored version by 1. -/
theorem updateLabel_falsy_version_bypass (st : List Label) (existing : Label)
    (labelId : String) (value : UpdatePatch) (now : Nat)
    (hfind : st.find? (fun l => l.id == labelId) = some existing)
    (hv : value.version = none ∨ value.version = some 0) :
    updateLabelOp st labelId value now =
      (st.map (fun l => if l.id == labelId then applyPatch existing value now else l),
        .updated (applyPatch existing value now)) ∧
    (applyPatch existing value now).version = existing.version + 1 := by
  have hcond : (jsTruthyNat value.version && existing.version != value.version.getD 0) = false := by
    rcases hv with hv | hv <;> simp [jsTruthyNat, hv]
  simp [updateLabelOp, hfind, hcond, applyPatch]

/-- Claim C9 witness: supplying `version = 0` against stored version 3
bypasses the check and the update lands at version 4. -/
theorem updateLabel_falsy_version_bypass_witness :
    (updateLabelOp [exLabel] "L1" (exPatch (some 0)) 7).2 =
      .updated (applyPatch exLabel (exPatch (some 0)) 7) ∧
    (applyPatch exLabel (exPatch (some 0)) 7).version = 4 := by
  have h := updateLabel_falsy_version_bypass [exLabel] exLabel "L1" (exPatch (some 0)) 7
    (by decide) (Or.inr (by decide))
  exact ⟨by rw [h.1], by simpa [exLabel] using h.2⟩

/-! ### Claim C2: version increments on mutation -/

/-- Claim C2, as stated, is false: `LabelService.updateLabelData` changes the
stored label's `fabricData` (and `updatedAt`) without incrementing `version`,
and `LabelService.updateThumbnail` likewise changes `thumbnail` with the
version untouched. -/
theorem C2_counterexample :
    (updateLabelData exLabel ⟨"7.0.0", [], "#000000"⟩ 9).fabricData ≠ exLabel.fabricData ∧
    (updateLabelData exLabel ⟨"7.0.0", [], "#000000"⟩ 9).version = exLabel.version ∧
    (updateThumbnail exLabel "labels/L1/md.png" 9).thumbnail ≠ exLabel.thumbnail ∧
    (updateThumbnail exLabel "labels/L1/md.png" 9).version = exLabel.version := by
  decide

/-- Claim C2 (amended): a successful `updateLabel` increments the stored
version by exactly 1; but the auxiliary mutation paths
`LabelService.updateLabelData` and `LabelService.updateThumbnail` change
`fabricData` respectively `thumbnail` while leaving `version` unchanged, so
not every fabricData/thumbnail mutation increments the version. -/
theorem updateLabel_version_increment (st : List Label) (existing l : Label)
    (labelId : String) (value : UpdatePatch) (now : Nat)
    (hfind : st.find? (fun x => x.id == labelId) = some existing)
    (hupd : (updateLabelOp st labelId value now).2 = .updated l) :
    l.version = existing.version + 1 ∧
    (∀ fd n, (updateLabelData existing fd n).version = existing.version) ∧
    (∀ tp n, (updateThumbnail existing tp n).version = existing.version) := by
  refine ⟨?_, fun fd n => rfl, fun tp n => rfl⟩
  by_cases hcond : (jsTruthyNat value.version && existing.version != value.version.getD 0) = true
  · simp [updateLabelOp, hfind, hcond] at hupd
  · simp [updateLabelOp, hfind, hcond] at hupd
    rw [← hupd]
    rfl

/-- Claim C2 witness: a concrete successful update lands at version 4 from
version 3, while the auxiliary writes leave version 3 in place. -/
theorem updateLabel_version_increment_witness :
    (applyPatch exLabel (exPatch (some 3)) 7).version = exLabel.version + 1 ∧
    (∀ fd n, (updateLabelData exLabel fd n).version = exLabel.version) ∧
    (∀ tp n, (updateThumbnail exLabel tp n).version = exLabel.version) := by
  exact updateLabel_version_increment [exLabel] exLabel
    (applyPatch exLabel (exPatch (some 3)) 7) "L1" (exPatch (some 3)) 7 (by decide) (by decide)

/-! ### Claim C3: bulk creation of five labels -/

/-- Claim C3: `createBulk` of 5 on a project with no existing labels creates
exactly the names `"New Label 1"` … `"New Label 5"`, pairwise distinct, with
the sibling-name snapshot re-derived (extended by the inserted name) before
each individual insert. -/
theorem createBulk_five_names :
    createBulkNames [] none 5 =
      ["New Label 1", "New Label 2", "New Label 3", "New Label 4", "New Label 5"] ∧
    (createBulkNames [] none 5).Nodup := by
  decide

/-! ### Claim C4: copy naming -/

/-- Claim C4: the spec's three `generateCopyName` examples hold, and for every
name already matching `"<stem> Copy"` or `"<stem> Copy <n>"` the result is
`"<stem> Copy <m>"` for the next unused `m > n` — never the original with
`" Copy"` appended. -/
theorem generateCopyName_spec (orig stem : String) (n : Nat) (existing : List String)
    (h : parseCopy orig = some (stem, n)) :
    generateCopyName "Invoice" [] = "Invoice Copy" ∧
    generateCopyName "Invoice" ["Invoice Copy"] = "Invoice Copy 2" ∧
    generateCopyName "Invoice Copy 2" ["Invoice Copy", "Invoice Copy 2"] = "Invoice Copy 3" ∧
    (∃ m, n < m ∧ generateCopyName orig existing = copyNumName stem m ∧
      copyNumName stem m ∉ existing ∧
      ∀ j, n < j → j < m → copyNumName stem j ∈ existing) ∧
    generateCopyName orig existing ≠ orig ++ " Copy" := by
  have hres : generateCopyName orig existing =
      copyNumName stem (firstFree (copyNumName stem) existing (n + 1)) := by
    simp [generateCopyName, h]
  refine ⟨by decide, by decide, by decide, ?_, ?_⟩
  · refine ⟨firstFree (copyNumName stem) existing (n + 1), ?_, hres, ?_, ?_⟩
    · exact firstFree_ge (copyNumName stem) existing (n + 1)
    · exact firstFree_free (copyNumName stem) existing (copyNumName_injective stem) (n + 1)
    · intro j h1 h2
      exact firstFree_min (copyNumName stem) existing (n + 1) j h1 h2
  · rw [hres]
    exact copyNumName_ne_append_copy stem _ orig

/-- Claim C4 witness: instantiated at `"Invoice Copy 2"` against
`{"Invoice Copy", "Invoice Copy 2"}`. -/
theorem generateCopyName_spec_witness :
    generateCopyName "Invoice Copy 2" ["Invoice Copy", "Invoice Copy 2"] = "Invoice Copy 3" ∧
    generateCopyName "Invoice Copy 2" ["Invoice Copy", "Invoice Copy 2"] ≠
      "Invoice Copy 2" ++ " Copy" := by
  have h := generateCopyName_spec "Invoice Copy 2" "Invoice" 2
    ["Invoice Copy", "Invoice Copy 2"] (by decide)
  exact ⟨h.2.2.1, h.2.2.2.2⟩

/-! ### Claim C5: feedback uniqueness -/

/-- Claim C5: feeding each `generateUniqueName` result back into the
existing-name set before the next call yields pairwise-distinct names, none of
which was in the initial set. -/
theorem generateUniqueName_feedback_distinct (existingNames bases : List String) :
    (feedbackNames existingNames bases).Nodup ∧
    ∀ x ∈ feedbackNames existingNames bases, x ∉ existingNames :=
  feedbackNames_nodup_aux bases existingNames

/-! ### Claim C6: storage failure behaviour of the AssetCoordinator -/

/-- Claim C6, as stated, is false: against an unreachable storage backend
`uploadThumbnail` does not return a null/empty result — it re-throws the
upload error to its caller. -/
theorem C6_counterexample :
    uploadThumbnail unreachableBackend "L1" "md" =
      Except.error "Upload failed: fetch failed" ∧
    deleteLabelThumbnails unreachableBackend "L1" = Except.ok () ∧
    refreshThumbnailUrl unreachableBackend "L1" "md" = none := by
  refine ⟨rfl, rfl, rfl⟩

/-- Claim C6 (amended): when the storage backend is unreachable,
`refreshThumbnailUrl` returns null after logging a warning, and
`deleteLabelThumbnails` returns empty-handed because the failed listing is
destructured to `null`; but `uploadThumbnail` logs the error and re-raises it
to its caller instead of returning a null result. -/
theorem storage_unreachable_semantics (b : StorageBackend) (labelId size : String)
    (hup : ∀ p, (b.upload p).error.isSome)
    (hsign : ∀ p t, (b.createSignedUrl p t).error.isSome)
    (hlist : ∀ p, (b.list p).data = none) :
    (∃ e, uploadThumbnail b labelId size = Except.error e) ∧
    refreshThumbnailUrl b labelId size = none ∧
    deleteLabelThumbnails b labelId = Except.ok () := by
  refine ⟨?_, ?_, ?_⟩
  · obtain ⟨e, he⟩ := Option.isSome_iff_exists.mp (hup (uploadThumbnailPath labelId size))
    exact ⟨"Upload failed: " ++ e, by simp [uploadThumbnail, uploadFile, sbUnwrap, he]⟩
  · obtain ⟨e, he⟩ := Option.isSome_iff_exists.mp
      (hsign (refreshThumbnailPath labelId size) 3600)
    simp [refreshThumbnailUrl, getSignedUrl, sbUnwrap, he]
  · simp [deleteLabelThumbnails, hlist]

/-- Claim C6 witness: the unreachable backend satisfies all three failure
hypotheses. -/
theorem storage_unreachable_semantics_witness :
    (∃ e, uploadThumbnail unreachableBackend "L2" "sm" = Except.error e) ∧
    refreshThumbnailUrl unreachableBackend "L2" "sm" = none ∧
    deleteLabelThumbnails unreachableBackend "L2" = Except.ok () :=
  storage_unreachable_semantics unreachableBackend "L2" "sm"
    (fun _ => rfl) (fun _ _ => rfl) (fun _ => rfl)

/-! ### Claim C7: createLabel under total blob-store failure -/

/-- Claim C7, as stated, is false: with the blob store failing all calls,
`createLabel` with a thumbnail payload succeeds but keeps the submitted data
URL as the label's thumbnail — it is not `null`. -/
theorem C7_counterexample :
    (createLabel unreachableBackend "L9" "P1" exCreateValue 5).thumbnail =
      some "data:image/png;base64,AAAA" ∧
    (createLabel unreachableBackend "L9" "P1" exCreateValue 5).thumbnail ≠ none := by
  decide

/-- Claim C7 (amended): if the blob store fails all calls, `createLabel` with
a thumbnail payload still succeeds — the label record is created at version 1
with the requested name — and the returned label's thumbnail falls back to the
submitted data URL rather than a storage URL (not to `null`). -/
theorem createLabel_graceful_degradation (b : StorageBackend) (newId projectId : String)
    (value : CreateLabelValue) (now : Nat) (t : String)
    (ht : value.thumbnail = some t)
    (hup : ∀ p, (b.upload p).error.isSome) :
    (createLabel b newId projectId value now).thumbnail = some t ∧
    (createLabel b newId projectId value now).version = 1 ∧
    (createLabel b newId projectId value now).name = value.name ∧
    (createLabel b newId projectId value now).projectId = projectId := by
  obtain ⟨e, he⟩ := Option.isSome_iff_exists.mp (hup (uploadThumbnailPath newId "md"))
  by_cases hd : strStartsWith t "data:image/"
  · simp [createLabel, ht, hd, uploadThumbnail, uploadFile, sbUnwrap, he]
  · simp [createLabel, ht, hd]

/-- Claim C7 witness: the unreachable backend and a data-URL payload. -/
theorem createLabel_graceful_degradation_witness :
    (createLabel unreachableBackend "L9" "P1" exCreateValue 5).thumbnail =
      some "data:image/png;base64,AAAA" ∧
    (createLabel unreachableBackend "L9" "P1" exCreateValue 5).version = 1 ∧
    (createLabel unreachableBackend "L9" "P1" exCreateValue 5).name = exCreateValue.name ∧
    (createLabel unreachableBackend "L9" "P1" exCreateValue 5).projectId = "P1" :=
  createLabel_graceful_degradation unreachableBackend "L9" "P1" exCreateValue 5
    "data:image/png;base64,AAAA" rfl (fun _ => rfl)

/-! ### Claim C8: deterministic thumbnail paths -/

/-- Claim C8: the thumbnail storage path is a deterministic function of
`(labelId, size)` with no randomness or timestamps; `refreshThumbnailUrl`
recomputes exactly the path `uploadThumbnail` stores at, so a re-upload
overwrites the previous artifact and a refreshed signed URL resolves to the
currently stored bytes. -/
theorem thumbnail_path_deterministic (b : StorageBackend) (labelId size u : String)
    (st : List (String × String)) (bytes1 bytes2 : String)
    (hup : b.upload (uploadThumbnailPath labelId size) =
      ⟨some (uploadThumbnailPath labelId size), none⟩)
    (hsign : b.createSignedUrl (uploadThumbnailPath labelId size) 3600 = ⟨some u, none⟩) :
    uploadThumbnailPath labelId size = refreshThumbnailPath labelId size ∧
    uploadThumbnail b labelId size = Except.ok (u, uploadThumbnailPath labelId size) ∧
    refreshThumbnailUrl b labelId size = some u ∧
    storeGet (storePut (storePut st (uploadThumbnailPath labelId size) bytes1)
        (uploadThumbnailPath labelId size) bytes2)
      (refreshThumbnailPath labelId size) = some bytes2 := by
  refine ⟨rfl, ?_, ?_, ?_⟩
  · simp [uploadThumbnail, uploadFile, sbUnwrap, hup, hsign]
  · have hpath : refreshThumbnailPath labelId size = uploadThumbnailPath labelId size := rfl
    simp [refreshThumbnailUrl, getSignedUrl, sbUnwrap, hpath, hsign]
  · have hpath : refreshThumbnailPath labelId size = uploadThumbnailPath labelId size := rfl
    simp [storeGet, storePut, hpath]

/-- Claim C8 witness: the echo backend at `("L1", "md")`. -/
theorem thumbnail_path_deterministic_witness :
    uploadThumbnailPath "L1" "md" = refreshThumbnailPath "L1" "md" ∧
    uploadThumbnail echoBackend "L1" "md" =
      Except.ok ("signed:labels/L1/md.png", uploadThumbnailPath "L1" "md") ∧
    refreshThumbnailUrl echoBackend "L1" "md" = some "signed:labels/L1/md.png" ∧
    storeGet (storePut (storePut [] (uploadThumbnailPath "L1" "md") "oldbytes")
        (uploadThumbnailPath "L1" "md") "newbytes")
      (refreshThumbnailPath "L1" "md") = some "newbytes" :=
  thumbnail_path_deterministic echoBackend "L1" "md" "signed:labels/L1/md.png" []
    "oldbytes" "newbytes" rfl rfl

/-! ### Claim C10: the default label of a new project -/

/-- Claim C10: every successful `createProject` also inserts exactly one label
named `"Default Label"` into the new project, so a freshly created project's
label collection is non-empty. -/
theorem createProject_default_label (value : CreateProjectValue)
    (userId newProjectId newLabelId : String) (now : Nat) :
    (createProject value userId newProjectId newLabelId now).2.map Label.name =
      ["Default Label"] ∧
    (createProject value userId newProjectId newLabelId now).2 ≠ [] ∧
    ∀ l ∈ (createProject value userId newProjectId newLabelId now).2,
      l.projectId = (createProject value userId newProjectId newLabelId now).1.id := by
  refine ⟨rfl, by simp [createProject], ?_⟩
  intro l hl
  simp [createProject] at hl
  simp [hl, createProject]

end LabelBackend
